import Mathlib

/-!
Verification of the E2EE-Secure-Chat repository: a shallow embedding of the
relay server (server/index.js), the client chat context
(e2ee-secure-chat/contexts/ChatContext.tsx), the file-transfer helpers
(utils/FileTransferManager.ts), the crypto service (utils/encryptionService.ts,
modelled symbolically) and the identity storage helpers (utils/userManager.ts).

JavaScript `Map` objects are modelled as association lists with unique keys,
plain objects used as string-indexed records of numbers are modelled as total
functions with default 0 (matching the `x[k] || 0` reading discipline of the
code), and the WebCrypto ECDH/AES-GCM capability is modelled symbolically:
key derivation is a deterministic function of (own private key, peer public
key) and AEAD decryption succeeds exactly under the key that produced the
ciphertext.  React state setters are modelled by applying their updater
functions in program order.  UI-only state (avatar colours, typing
indicators, chat-request lists) and deferred cosmetic cleanups are omitted;
every field and branch that the verified claims depend on is modelled from
the source.
-/

namespace SecureChat

/-- Association list lookup, first match wins (JS `Map.get`). -/
def lookupA {α β : Type} [DecidableEq α] : List (α × β) → α → Option β
  | [], _ => none
  | (k0, v0) :: rest, k => if k = k0 then some v0 else lookupA rest k

/-- Association list update (JS `Map.set`): replace the entry in place if the
key is present, append otherwise. -/
def setA {α β : Type} [DecidableEq α] : List (α × β) → α → β → List (α × β)
  | [], k, v => [(k, v)]
  | (k0, v0) :: rest, k, v =>
    if k0 = k then (k, v) :: rest else (k0, v0) :: setA rest k v

/-- Association list deletion (JS `Map.delete`; keys are unique in a `Map`,
so removing every entry with the key is the same operation). -/
def deleteA {α β : Type} [DecidableEq α] (l : List (α × β)) (k : α) :
    List (α × β) :=
  l.filter (fun p => decide (p.1 ≠ k))

/-- Membership test for a list of strings. -/
def memA : List String → String → Bool
  | [], _ => false
  | a :: rest, s => if s = a then true else memA rest s

theorem lookupA_setA_self {α β : Type} [DecidableEq α]
    (l : List (α × β)) (k : α) (v : β) : lookupA (setA l k v) k = some v := by
  induction l with
  | nil => simp [setA, lookupA]
  | cons hd tl ih =>
    by_cases h : hd.1 = k
    · simp [setA, h, lookupA]
    · have h' : ¬ k = hd.1 := fun hk => h hk.symm
      simp [setA, h, lookupA, h', ih]

theorem lookupA_setA_ne {α β : Type} [DecidableEq α]
    (l : List (α × β)) {k k' : α} (v : β) (h : k' ≠ k) :
    lookupA (setA l k v) k' = lookupA l k' := by
  induction l with
  | nil => simp [setA, lookupA, h]
  | cons hd tl ih =>
    by_cases h0 : hd.1 = k
    · have h1 : ¬ k' = hd.1 := fun hk => h (hk.trans h0)
      simp [setA, h0, lookupA, h, h1]
    · by_cases h1 : k' = hd.1
      · simp [setA, h0, lookupA, h1]
      · simp [setA, h0, lookupA, h1, ih]

theorem lookupA_deleteA_self {α β : Type} [DecidableEq α]
    (l : List (α × β)) (k : α) : lookupA (deleteA l k) k = none := by
  induction l with
  | nil => simp [deleteA, lookupA]
  | cons hd tl ih =>
    by_cases h : hd.1 = k
    · simpa [deleteA, h] using ih
    · have h' : ¬ k = hd.1 := fun hk => h hk.symm
      simpa [deleteA, h, lookupA, h'] using ih

theorem lookupA_deleteA_ne {α β : Type} [DecidableEq α]
    (l : List (α × β)) {k k' : α} (h : k' ≠ k) :
    lookupA (deleteA l k) k' = lookupA l k' := by
  induction l with
  | nil => simp [deleteA, lookupA]
  | cons hd tl ih =>
    by_cases h0 : hd.1 = k
    · have h1 : ¬ k' = hd.1 := fun hk => h (hk.trans h0)
      simpa [deleteA, h0, lookupA, h, h1] using ih
    · by_cases h1 : k' = hd.1
      · simp [deleteA, h0, lookupA, h1]
      · simpa [deleteA, h0, lookupA, h1] using ih

/-- Identity storage, from utils/userManager.ts.  `storeIdentity` and
`getStoredIdentity` use the literal key `chat_identity`, while the
`STORAGE_KEY` constant holds `e2ee_chat_identity`. -/
def STORAGE_KEY : String := "e2ee_chat_identity"

structure UserIdentity where
  username : String
  avatarColor : String
deriving DecidableEq, Repr

/-- sessionStorage, abstracting the JSON round trip: values are the parsed
identities. -/
abbrev SessionStorage := List (String × UserIdentity)

/-- utils/userManager.ts `getStoredIdentity`: reads `chat_identity`. -/
def getStoredIdentity (s : SessionStorage) : Option UserIdentity :=
  lookupA s "chat_identity"

/-- utils/userManager.ts `storeIdentity`: writes `chat_identity`. -/
def storeIdentity (s : SessionStorage) (i : UserIdentity) : SessionStorage :=
  setA s "chat_identity" i

/-- utils/userManager.ts `clearIdentity`: removes `STORAGE_KEY`. -/
def clearIdentity (s : SessionStorage) : SessionStorage :=
  deleteA s STORAGE_KEY

/-- Claim C10: after `storeIdentity i` followed by `clearIdentity`,
`getStoredIdentity` still returns `i`, because `clearIdentity` removes the
sessionStorage key `e2ee_chat_identity` while the other two functions operate
on the key `chat_identity`. -/
theorem c10_clear_identity_misses_stored_key :
    ∀ (s : SessionStorage) (i : UserIdentity),
      getStoredIdentity (clearIdentity (storeIdentity s i)) = some i := by
  intro s i
  unfold getStoredIdentity clearIdentity storeIdentity
  rw [lookupA_deleteA_ne]
  · exact lookupA_setA_self s "chat_identity" i
  · decide

/-!  Relay server model, from server/index.js.  Per-connection socket state
is summarised by the `connected` list; emissions to clients are summarised in
handler outcomes.  Stats counters, per-IP connection counts and the
rate-limit map (modelled separately below) do not interact with the claims
about the presence registry and are omitted from `ServerState`. -/

/-- The server's user record: `{ socketId, username, publicKey, ip }`. -/
structure SUser where
  socketId : String
  username : String
  publicKey : Nat
  ip : String
deriving DecidableEq, Repr

/-- Relay state: `rooms` (roomId to per-room `Map` of socketId to user),
`socketToRoom`, the global `allUsers` directory (username to user), the
pending room-deletion timeouts as (roomId, fire time) pairs, and the set of
currently connected sockets. -/
structure ServerState where
  rooms : List (String × List (String × SUser))
  socketToRoom : List (String × String)
  allUsers : List (String × SUser)
  timers : List (String × Nat)
  connected : List String
deriving DecidableEq, Repr

/-- server/index.js `isValidUsername`: a 3..20 character string over
letters, digits, underscore, hash, hyphen and whitespace. -/
def isValidUsername (s : String) : Bool :=
  3 ≤ s.length && s.length ≤ 20 &&
    s.data.all (fun c => c.isAlphanum || c = '_' || c = '#' || c = '-' || c.isWhitespace)

/-- server/index.js `isValidRoomId`: a 1..50 character string. -/
def isValidRoomId (s : String) : Bool :=
  1 ≤ s.length && s.length ≤ 50

/-- Remove a socket id from the connected set. -/
def removeStr (l : List String) (s : String) : List String :=
  l.filter (fun x => decide (x ≠ s))

/-- The `disconnect` handler's global cleanup loop: scan `allUsers` in
insertion order, delete the first entry whose stored socketId matches the
disconnected socket, then `break`. -/
def cleanupFirst : List (String × SUser) → String → List (String × SUser)
  | [], _ => []
  | (k, v) :: rest, sid =>
    if v.socketId = sid then rest else (k, v) :: cleanupFirst rest sid

/-- Shared room-departure logic of the `leave-room` and `disconnect`
handlers: remove the socket from its room, and when the member set becomes
empty schedule a deletion check 10000 ms later (`setTimeout`); the timeout is
recorded, never cancelled.  Finally drop the `socketToRoom` entry. -/
def roomPartLeave (st : ServerState) (sid : String) (t : Nat) : ServerState :=
  match lookupA st.socketToRoom sid with
  | none => st
  | some roomId =>
    match lookupA st.rooms roomId with
    | none => { st with socketToRoom := deleteA st.socketToRoom sid }
    | some roomUsers =>
      if deleteA roomUsers sid = [] then
        { st with rooms := setA st.rooms roomId (deleteA roomUsers sid),
                  timers := st.timers ++ [(roomId, t + 10000)],
                  socketToRoom := deleteA st.socketToRoom sid }
      else
        { st with rooms := setA st.rooms roomId (deleteA roomUsers sid),
                  socketToRoom := deleteA st.socketToRoom sid }

/-- The `disconnect` handler: room departure, then the global `allUsers`
cleanup loop; the transport slot is released. -/
def disconnectCore (st : ServerState) (sid : String) (t : Nat) : ServerState :=
  { roomPartLeave st sid t with
      allUsers := cleanupFirst (roomPartLeave st sid t).allUsers sid,
      connected := removeStr (roomPartLeave st sid t).connected sid }

/-- Outcome of `register-user`: `invalidUsername` and `usernameTaken` are
error emissions (the latter followed by a forced disconnect of the new
socket); `registered evicted` records a successful directory update, where
`evicted = some oldSid` means the previous same-IP holder was sent a notice
and forcibly disconnected. -/
inductive RegOutcome where
  | invalidUsername
  | usernameTaken
  | registered (evicted : Option String)
deriving DecidableEq, Repr

/-- The `register-user` handler.  A forced disconnect (of the old same-IP
holder, or of the rejected new socket) fires that socket's `disconnect`
handler, modelled by `disconnectCore`. -/
def registerUser (st : ServerState) (sid ip username : String) (pub t : Nat) :
    RegOutcome × ServerState :=
  if isValidUsername username then
    let user : SUser := ⟨sid, username, pub, ip⟩
    match lookupA st.allUsers username with
    | some ex =>
      if ex.socketId = sid then
        (RegOutcome.registered none,
         { st with allUsers := setA st.allUsers username user })
      else if ex.ip = ip then
        let st1 := if memA st.connected ex.socketId then
                     disconnectCore st ex.socketId t else st
        (RegOutcome.registered
           (if memA st.connected ex.socketId then some ex.socketId else none),
         { st1 with allUsers := setA st1.allUsers username user })
      else
        (RegOutcome.usernameTaken, disconnectCore st sid t)
    | none =>
      (RegOutcome.registered none,
       { st with allUsers := setA st.allUsers username user })
  else (RegOutcome.invalidUsername, st)

/-- The membership-adding part of `join-room`: record the socket's room,
add the user to the room's member map, and refresh the global directory. -/
def joinCore (st : ServerState) (sid ip roomId username : String) (pub : Nat) :
    ServerState :=
  let user : SUser := ⟨sid, username, pub, ip⟩
  let st := { st with socketToRoom := setA st.socketToRoom sid roomId }
  let roomUsers := (lookupA st.rooms roomId).getD []
  { st with rooms := setA st.rooms roomId (setA roomUsers sid user),
            allUsers := setA st.allUsers username user }

/-- The `join-room` handler: validation, the duplicated username-uniqueness
check (same-IP reclaim evicts the old holder, different IP is rejected with a
forced disconnect), then `joinCore`. -/
def joinRoomHandler (st : ServerState) (sid ip roomId username : String)
    (pub t : Nat) : ServerState :=
  if isValidRoomId roomId && isValidUsername username then
    match lookupA st.allUsers username with
    | some ex =>
      if ex.socketId = sid then joinCore st sid ip roomId username pub
      else if ex.ip = ip then
        let st := if memA st.connected ex.socketId then
                    disconnectCore st ex.socketId t else st
        joinCore st sid ip roomId username pub
      else disconnectCore st sid t
    | none => joinCore st sid ip roomId username pub
  else st

/-- Does a scheduled deletion check for this room at this fire time exist? -/
def hasTimer : List (String × Nat) → String → Nat → Bool
  | [], _, _ => false
  | (r0, t0) :: rest, r, t =>
    if r0 = r ∧ t0 = t then true else hasTimer rest r t

/-- Consume one scheduled timer. -/
def removeTimer : List (String × Nat) → String → Nat → List (String × Nat)
  | [], _, _ => []
  | (r0, t0) :: rest, r, t =>
    if r0 = r ∧ t0 = t then rest else (r0, t0) :: removeTimer rest r t

/-- A scheduled deletion check fires: `if (rooms.has(roomId) &&
rooms.get(roomId).size === 0) rooms.delete(roomId)`.  Membership at fire
time is the only thing examined; nothing cancels a pending check. -/
def fireTimer (st : ServerState) (roomId : String) (t : Nat) : ServerState :=
  if hasTimer st.timers roomId t then
    let st := { st with timers := removeTimer st.timers roomId t }
    match lookupA st.rooms roomId with
    | some m => if m = [] then { st with rooms := deleteA st.rooms roomId } else st
    | none => st
  else st

/-- Relay events: connection admission, the presence handlers, transport
loss and timer firing.  Events carry the wall-clock time where the handler
reads `Date.now()`. -/
inductive SEvent where
  | connect (sid : String)
  | register (sid ip username : String) (pub t : Nat)
  | joinRoom (sid ip roomId username : String) (pub t : Nat)
  | leaveRoom (sid : String) (t : Nat)
  | disconnect (sid : String) (t : Nat)
  | fire (roomId : String) (t : Nat)
deriving DecidableEq, Repr

/-- One step of the relay. -/
def stepS (st : ServerState) : SEvent → ServerState
  | SEvent.connect sid => { st with connected := st.connected ++ [sid] }
  | SEvent.register sid ip username pub t =>
      (registerUser st sid ip username pub t).2
  | SEvent.joinRoom sid ip roomId username pub t =>
      joinRoomHandler st sid ip roomId username pub t
  | SEvent.leaveRoom sid t => roomPartLeave st sid t
  | SEvent.disconnect sid t => disconnectCore st sid t
  | SEvent.fire roomId t => fireTimer st roomId t

/-- The empty relay state. -/
def initServer : ServerState := ⟨[], [], [], [], []⟩

theorem memA_removeStr (l : List String) (s : String) :
    memA (removeStr l s) s = false := by
  induction l with
  | nil => rfl
  | cons a rest ih =>
    by_cases h : a = s
    · simpa [removeStr, h] using ih
    · have h' : ¬ s = a := fun hs => h hs.symm
      simpa [removeStr, h, memA, h'] using ih

theorem lookupA_cleanupFirst (l : List (String × SUser)) {k : String}
    {v : SUser} {sid : String} (hl : lookupA l k = some v)
    (hv : v.socketId ≠ sid) : lookupA (cleanupFirst l sid) k = some v := by
  induction l with
  | nil => simp [lookupA] at hl
  | cons hd tl ih =>
    rcases hd with ⟨k0, v0⟩
    by_cases hk : k = k0
    · rw [lookupA, if_pos hk] at hl
      have hv0 : v0 = v := by injection hl
      subst hv0
      rw [cleanupFirst, if_neg hv, lookupA, if_pos hk]
    · rw [lookupA, if_neg hk] at hl
      by_cases hs : v0.socketId = sid
      · rw [cleanupFirst, if_pos hs]
        exact hl
      · rw [cleanupFirst, if_neg hs, lookupA, if_neg hk]
        exact ih hl

theorem roomPartLeave_allUsers (st : ServerState) (sid : String) (t : Nat) :
    (roomPartLeave st sid t).allUsers = st.allUsers := by
  unfold roomPartLeave
  split
  · rfl
  · split
    · rfl
    · split <;> rfl

theorem roomPartLeave_connected (st : ServerState) (sid : String) (t : Nat) :
    (roomPartLeave st sid t).connected = st.connected := by
  unfold roomPartLeave
  split
  · rfl
  · split
    · rfl
    · split <;> rfl

theorem disconnectCore_allUsers (st : ServerState) (sid : String) (t : Nat) :
    (disconnectCore st sid t).allUsers = cleanupFirst st.allUsers sid := by
  show cleanupFirst (roomPartLeave st sid t).allUsers sid = cleanupFirst st.allUsers sid
  rw [roomPartLeave_allUsers]

theorem disconnectCore_connected (st : ServerState) (sid : String) (t : Nat) :
    (disconnectCore st sid t).connected = removeStr st.connected sid := by
  show removeStr (roomPartLeave st sid t).connected sid = removeStr st.connected sid
  rw [roomPartLeave_connected]

/-- Claim C4: for a second registration of a username already held by a
different connection, a different originating address is rejected as a
naming collision (`usernameTaken` notice, new socket forcibly closed, the
directory entry unchanged), while the same originating address evicts the
old connection (notice, forced disconnect) and hands the username to the new
connection. -/
theorem c4_username_reclaim_rule
    (st : ServerState) (sid2 ip2 username : String) (pub2 t : Nat) (ex : SUser)
    (hv : isValidUsername username = true)
    (hex : lookupA st.allUsers username = some ex)
    (hsid : ex.socketId ≠ sid2) :
    (ex.ip ≠ ip2 →
       (registerUser st sid2 ip2 username pub2 t).1 = RegOutcome.usernameTaken ∧
       lookupA (registerUser st sid2 ip2 username pub2 t).2.allUsers username
         = some ex ∧
       memA (registerUser st sid2 ip2 username pub2 t).2.connected sid2
         = false) ∧
    (ex.ip = ip2 →
       (registerUser st sid2 ip2 username pub2 t).1 = RegOutcome.registered
         (if memA st.connected ex.socketId then some ex.socketId else none) ∧
       lookupA (registerUser st sid2 ip2 username pub2 t).2.allUsers username
         = some ⟨sid2, username, pub2, ip2⟩ ∧
       memA (registerUser st sid2 ip2 username pub2 t).2.connected ex.socketId
         = false) := by
  constructor
  · intro hip
    rw [registerUser]
    simp only [hv, if_true, hex, if_neg hsid, if_neg hip]
    refine ⟨trivial, ?_, ?_⟩
    · rw [disconnectCore_allUsers]
      exact lookupA_cleanupFirst st.allUsers hex hsid
    · rw [disconnectCore_connected]
      exact memA_removeStr st.connected sid2
  · intro hip
    rw [registerUser]
    simp only [hv, if_true, hex, if_neg hsid, if_pos hip]
    by_cases hmem : memA st.connected ex.socketId = true
    · simp only [hmem, if_true]
      refine ⟨trivial, lookupA_setA_self _ _ _, ?_⟩
      rw [disconnectCore_connected]
      exact memA_removeStr st.connected ex.socketId
    · have hmem' : memA st.connected ex.socketId = false :=
        Bool.eq_false_iff.mpr hmem
      simp only [hmem', Bool.false_eq_true, if_false]
      exact ⟨trivial, lookupA_setA_self _ _ _, trivial⟩

/-- Witness for C4 at concrete inputs: the username `alice` is held by
socket `s1` from `ip1`; a different-origin registration by `s2` from `ip2`
is rejected with the directory unchanged, and a same-origin registration by
`s3` from `ip1` evicts `s1` and takes the entry. -/
def exC4St : ServerState :=
  ⟨[], [], [("alice", ⟨"s1", "alice", 7, "ip1"⟩)], [], ["s1"]⟩

theorem c4_username_reclaim_rule_witness :
    ((registerUser exC4St "s2" "ip2" "alice" 9 3).1 = RegOutcome.usernameTaken ∧
     lookupA (registerUser exC4St "s2" "ip2" "alice" 9 3).2.allUsers "alice"
       = some ⟨"s1", "alice", 7, "ip1"⟩ ∧
     memA (registerUser exC4St "s2" "ip2" "alice" 9 3).2.connected "s2"
       = false) ∧
    ((registerUser exC4St "s3" "ip1" "alice" 9 3).1
       = RegOutcome.registered
           (if memA exC4St.connected "s1" then some "s1" else none) ∧
     lookupA (registerUser exC4St "s3" "ip1" "alice" 9 3).2.allUsers "alice"
       = some ⟨"s3", "alice", 9, "ip1"⟩ ∧
     memA (registerUser exC4St "s3" "ip1" "alice" 9 3).2.connected "s1"
       = false) := by
  constructor
  · exact (c4_username_reclaim_rule exC4St "s2" "ip2" "alice" 9 3
      ⟨"s1", "alice", 7, "ip1"⟩ (by decide) (by decide) (by decide)).1
      (by decide)
  · exact (c4_username_reclaim_rule exC4St "s3" "ip1" "alice" 9 3
      ⟨"s1", "alice", 7, "ip1"⟩ (by decide) (by decide) (by decide)).2
      (by decide)

/-- Trace for C9: socket `s1` registers the username `alice`, then joins a
room under the different username `bobby` (both directory entries now store
socketId `s1`), then disconnects. -/
def exC9Trace : List SEvent :=
  [SEvent.connect "s1",
   SEvent.register "s1" "ip1" "alice" 1 0,
   SEvent.joinRoom "s1" "ip1" "room1" "bobby" 1 0,
   SEvent.disconnect "s1" 5]

/-- Claim C9: the disconnect cleanup deletes at most one `allUsers` entry
(the scan breaks after the first match), and since one connection can enter
the directory under two usernames (`register-user` plus `join-room`), after
the trace above the directory still maps `bobby` to the dead socket `s1`. -/
theorem c9_disconnect_cleanup_leaves_stale_entry :
    (∀ (l : List (String × SUser)) (sid : String),
        l.length ≤ (cleanupFirst l sid).length + 1) ∧
    (memA (exC9Trace.foldl stepS initServer).connected "s1" = false ∧
     lookupA (exC9Trace.foldl stepS initServer).allUsers "bobby"
       = some ⟨"s1", "bobby", 1, "ip1"⟩) := by
  constructor
  · intro l sid
    induction l with
    | nil => simp [cleanupFirst]
    | cons hd tl ih =>
      by_cases h : hd.2.socketId = sid
      · simp [cleanupFirst, h]
      · rcases hd with ⟨k0, v0⟩
        simp only [cleanupFirst, if_neg h, List.length_cons]
        omega
  · constructor
    · decide
    · decide

/-- Trace for C3: `room1` is emptied at t = 1000 (check scheduled for
t = 11000), re-joined at t = 5000, re-emptied at t = 8000 (second check
scheduled for t = 18000); the first check then fires at t = 11000. -/
def exC3Trace : List SEvent :=
  [SEvent.connect "sa",
   SEvent.joinRoom "sa" "ip1" "room1" "alice" 1 0,
   SEvent.leaveRoom "sa" 1000,
   SEvent.connect "sb",
   SEvent.joinRoom "sb" "ip1" "room1" "bobby" 2 5000,
   SEvent.leaveRoom "sb" 8000,
   SEvent.fire "room1" 11000]

/-- Counterexample to claim C3 as stated: a member re-joined the room at
t = 5000, before the deletion scheduled when the room emptied at t = 1000
could elapse, yet that scheduled deletion is not cancelled — it fires at
t = 11000 and deletes the room, even though the room last became empty at
t = 8000 and a full 10 s grace period of continuous emptiness would only
elapse at t = 18000. -/
theorem c3_counterexample_stale_timer_deletes_rejoined_room :
    lookupA ((exC3Trace.take 5).foldl stepS initServer).rooms "room1"
      = some [("sb", ⟨"sb", "bobby", 2, "ip1"⟩)] ∧
    lookupA ((exC3Trace.take 6).foldl stepS initServer).rooms "room1"
      = some [] ∧
    lookupA (exC3Trace.foldl stepS initServer).rooms "room1" = none ∧
    11000 < 8000 + 10000 := by
  refine ⟨by decide, by decide, by decide, by decide⟩

/-- Claim C3 (amended): when a room's member set becomes empty (by
`leave-room` or by disconnect) a deletion check is scheduled 10 s later and
never cancelled; a check that fires deletes the room exactly when the member
set is empty at fire time, so a member present at fire time prevents that
deletion — but a room that is re-joined and re-emptied can be deleted by an
earlier-scheduled check before a full 10 s of continuous emptiness since it
last became empty (see the counterexample trace). -/
theorem c3_amended_grace_period_checks :
    (∀ (st : ServerState) (r : String) (t : Nat) (m : List (String × SUser)),
        lookupA st.rooms r = some m → m ≠ [] →
        lookupA (stepS st (SEvent.fire r t)).rooms r = some m) ∧
    (∀ (st : ServerState) (r : String) (t : Nat),
        hasTimer st.timers r t = true → lookupA st.rooms r = some [] →
        lookupA (stepS st (SEvent.fire r t)).rooms r = none) ∧
    (∀ (st : ServerState) (sid : String) (t : Nat) (r : String)
        (m : List (String × SUser)),
        lookupA st.socketToRoom sid = some r → lookupA st.rooms r = some m →
        deleteA m sid = [] →
        (stepS st (SEvent.leaveRoom sid t)).timers
          = st.timers ++ [(r, t + 10000)]) ∧
    (∀ (st : ServerState) (sid : String) (t : Nat) (r : String)
        (m : List (String × SUser)),
        lookupA st.socketToRoom sid = some r → lookupA st.rooms r = some m →
        deleteA m sid = [] →
        (stepS st (SEvent.disconnect sid t)).timers
          = st.timers ++ [(r, t + 10000)]) := by
  refine ⟨?_, ?_, ?_, ?_⟩
  · intro st r t m hm hne
    by_cases ht : hasTimer st.timers r t = true
    · simp [stepS, fireTimer, ht, hm, hne]
    · simp [stepS, fireTimer, Bool.eq_false_iff.mpr ht, hm]
  · intro st r t ht hm
    simp [stepS, fireTimer, ht, hm, lookupA_deleteA_self]
  · intro st sid t r m hs hm hd
    simp [stepS, roomPartLeave, hs, hm, hd]
  · intro st sid t r m hs hm hd
    show (roomPartLeave st sid t).timers = st.timers ++ [(r, t + 10000)]
    simp [roomPartLeave, hs, hm, hd]

/-- Witness for the amended C3 at concrete inputs: a fire against a
non-empty room keeps it, a fire against an empty room with a scheduled check
deletes it, and emptying a room by leave or by disconnect schedules a check
10 s later. -/
def exC3UserA : SUser := ⟨"s", "alice", 1, "ip1"⟩

def exC3StLive : ServerState :=
  ⟨[("r", [("s", exC3UserA)])], [("s", "r")], [], [("r", 5)], ["s"]⟩

def exC3StEmpty : ServerState := ⟨[("r", [])], [], [], [("r", 5)], []⟩

theorem c3_amended_grace_period_checks_witness :
    lookupA (stepS exC3StLive (SEvent.fire "r" 5)).rooms "r"
      = some [("s", exC3UserA)] ∧
    lookupA (stepS exC3StEmpty (SEvent.fire "r" 5)).rooms "r" = none ∧
    (stepS exC3StLive (SEvent.leaveRoom "s" 7)).timers
      = [("r", 5)] ++ [("r", 7 + 10000)] ∧
    (stepS exC3StLive (SEvent.disconnect "s" 7)).timers
      = [("r", 5)] ++ [("r", 7 + 10000)] := by
  refine ⟨?_, ?_, ?_, ?_⟩
  · exact c3_amended_grace_period_checks.1 exC3StLive "r" 5 [("s", exC3UserA)]
      (by decide) (by decide)
  · exact c3_amended_grace_period_checks.2.1 exC3StEmpty "r" 5
      (by decide) (by decide)
  · exact c3_amended_grace_period_checks.2.2.1 exC3StLive "s" 7 "r"
      [("s", exC3UserA)] (by decide) (by decide) (by decide)
  · exact c3_amended_grace_period_checks.2.2.2 exC3StLive "s" 7 "r"
      [("s", exC3UserA)] (by decide) (by decide) (by decide)

/-!  Rate limiting, from server/index.js (`checkRateLimit` and the
`socket.use` middleware).  An event whose check fails is dropped on the
floor: the middleware returns without calling `next()` and without emitting
anything, so the event is neither queued nor answered with an error. -/

def RATE_LIMIT_WINDOW : Nat := 1000

def MAX_REQUESTS_PER_WINDOW : Nat := 10

/-- Per-socket limiter record `{ count, lastReset }`. -/
structure RateData where
  count : Nat
  lastReset : Nat
deriving DecidableEq, Repr

/-- server/index.js `checkRateLimit`, for one socket: missing state is
initialised to `{ count: 0, lastReset: now }`; a window older than
`RATE_LIMIT_WINDOW` is reset; the counter is incremented and the event is
admitted exactly when the new count is within `MAX_REQUESTS_PER_WINDOW`. -/
def checkRateLimit (s : Option RateData) (now : Nat) : RateData × Bool :=
  match s with
  | none =>
    (⟨1, now⟩, decide (1 ≤ MAX_REQUESTS_PER_WINDOW))
  | some d =>
    if now - d.lastReset > RATE_LIMIT_WINDOW then
      (⟨1, now⟩, decide (1 ≤ MAX_REQUESTS_PER_WINDOW))
    else
      (⟨d.count + 1, d.lastReset⟩, decide (d.count + 1 ≤ MAX_REQUESTS_PER_WINDOW))

/-- Run the middleware over a sequence of event arrival times; `true` means
the event was passed to its handler, `false` that it was silently dropped. -/
def runEvents : Option RateData → List Nat → List Bool
  | _, [] => []
  | s, t :: ts =>
    (checkRateLimit s t).2 :: runEvents (some (checkRateLimit s t).1) ts

theorem runEvents_window (ts : List Nat) (c t0 : Nat)
    (h : ∀ t ∈ ts, t0 ≤ t ∧ t - t0 ≤ RATE_LIMIT_WINDOW) :
    runEvents (some ⟨c, t0⟩) ts
      = (List.range ts.length).map
          (fun i => decide (c + i + 1 ≤ MAX_REQUESTS_PER_WINDOW)) := by
  induction ts generalizing c with
  | nil => rfl
  | cons t ts ih =>
    have ht := h t (List.mem_cons_self t ts)
    have hno : ¬ t - t0 > RATE_LIMIT_WINDOW := by omega
    have htl : ∀ x ∈ ts, t0 ≤ x ∧ x - t0 ≤ RATE_LIMIT_WINDOW :=
      fun x hx => h x (List.mem_cons_of_mem t hx)
    rw [runEvents]
    simp only [checkRateLimit, if_neg hno]
    rw [ih (c + 1) htl]
    rw [List.length_cons, List.range_succ_eq_map, List.map_cons, List.map_map]
    congr 1
    all_goals
      first
      | (rw [decide_eq_decide]; omega)
      | (apply List.map_congr_left; intro i _;
         simp only [Function.comp_apply]; rw [decide_eq_decide]; omega)

/-- Claim C7: starting from a fresh per-connection window, for any burst of
events whose arrival times stay within `RATE_LIMIT_WINDOW` of the first
event, exactly the first `MAX_REQUESTS_PER_WINDOW` events are admitted and
every further event of the window is dropped; and an event arriving after
the window has aged out resets the counter (to a fresh window holding that
one event, which is admitted). -/
theorem c7_rate_limit_fixed_window :
    (∀ (t0 : Nat) (ts : List Nat),
        (∀ t ∈ ts, t0 ≤ t ∧ t - t0 ≤ RATE_LIMIT_WINDOW) →
        runEvents none (t0 :: ts)
          = (List.range (ts.length + 1)).map
              (fun i => decide (i < MAX_REQUESTS_PER_WINDOW))) ∧
    (∀ (c lr t : Nat), t - lr > RATE_LIMIT_WINDOW →
        checkRateLimit (some ⟨c, lr⟩) t = (⟨1, t⟩, true)) := by
  constructor
  · intro t0 ts h
    rw [runEvents]
    simp only [checkRateLimit]
    rw [runEvents_window ts 1 t0 h]
    rw [List.range_succ_eq_map, List.map_cons, List.map_map]
    congr 1
    all_goals
      first
      | (rw [decide_eq_decide]; simp [MAX_REQUESTS_PER_WINDOW])
      | (apply List.map_congr_left; intro i _;
         simp only [Function.comp_apply]; rw [decide_eq_decide];
         simp only [MAX_REQUESTS_PER_WINDOW]; omega)
  · intro c lr t h
    simp [checkRateLimit, h, MAX_REQUESTS_PER_WINDOW]

/-- Witness for C7 at concrete inputs: twelve events inside one window admit
exactly the first ten, and an event 1001 ms after the last reset starts a
fresh window. -/
theorem c7_rate_limit_fixed_window_witness :
    runEvents none (0 :: List.replicate 11 500)
      = (List.range 12).map (fun i => decide (i < MAX_REQUESTS_PER_WINDOW)) ∧
    checkRateLimit (some ⟨7, 0⟩) 1001 = (⟨1, 1001⟩, true) := by
  constructor
  · exact c7_rate_limit_fixed_window.1 0 (List.replicate 11 500) (by decide)
  · exact c7_rate_limit_fixed_window.2 7 0 1001 (by decide)

/-!  Client model, from e2ee-secure-chat/contexts/ChatContext.tsx.  The
WebCrypto capability is modelled symbolically: `deriveSharedSecret` is an
injective deterministic function of (own private key, peer public key), and
an AES-GCM ciphertext decrypts (authenticates) exactly under the key that
produced it.  React state setters are applied in program order; refs and
state that the code keeps in sync (`activeTransfersRef` / `activeTransfers`)
are modelled as one field. -/

/-- A peer as the client sees it. -/
structure UserProfile where
  socketId : String
  username : String
  publicKey : Nat
  isOnline : Bool
deriving DecidableEq, Repr

/-- utils/encryptionService.ts `deriveSharedSecret`: ECDH key agreement,
deterministic in (own private key, peer public key). -/
def deriveSharedSecret (ownPriv peerPub : Nat) : Nat :=
  Nat.pair ownPriv peerPub

/-- A ciphertext together with the key that produced it (symbolic AEAD). -/
structure Cipher where
  key : Nat
  text : String
deriving DecidableEq, Repr

/-- utils/encryptionService.ts `decryptText`: AES-GCM authenticated
decryption succeeds exactly under the producing key, and returns failure
(the catch branch returning null) otherwise. -/
def decryptText (c : Cipher) (k : Nat) : Option String :=
  if c.key = k then some c.text else none

/-- An `encrypted-message` payload: the optional sender public key carried
as `senderPublicKeyJwkString`, the ciphertext (`encryptedDataB64` plus
`ivB64`), and the DM flag. -/
structure EncPayload where
  senderPub : Option Nat
  cipher : Cipher
  isDirect : Bool
deriving DecidableEq, Repr

/-- utils/FileTransferManager.ts transfer status values. -/
inductive TStatus where
  | pending
  | transferring
  | paused
  | completed
  | error
deriving DecidableEq, Repr

/-- The fields of `FileTransferState` that the verified behaviour reads. -/
structure Transfer where
  fileName : String
  fileType : String
  chunksTotal : Nat
  status : TStatus
  isUpload : Bool
  peerSocketId : String
  progress : Nat
deriving DecidableEq, Repr

/-- Client-side state of the chat context: `sharedSecretsRef`,
`unreadCounts` (a string-keyed record read with default 0),
`activeChatTargetRef` (the literal `ROOM` denotes the room target),
message history, the transfer bookkeeping
(`processedTransferIds`, `activeTransfers`, `fileChunksRef`), the finalized
downloads (`saves` records each triggered save prompt), and an observation
counter of key-derivation calls. -/
structure ClientState where
  ownPriv : Nat
  activeUsers : List UserProfile
  sharedSecrets : List (String × Nat)
  unreadCounts : String → Nat
  activeChatTarget : String
  pendingTargetUser : Option String
  roomMessages : List String
  directMessages : String → List String
  sysMessages : List String
  deriveCalls : Nat
  processedTransferIds : List String
  activeTransfers : List (String × Transfer)
  fileChunks : List (String × List (Nat × List Nat))
  saves : List (String × List Nat)

/-- Write one key of a string-keyed record of numbers. -/
def updateCount (m : String → Nat) (k : String) (v : Nat) : String → Nat :=
  fun x => if x = k then v else m x

def findByUsername : List UserProfile → String → Option UserProfile
  | [], _ => none
  | u :: rest, name =>
    if u.username = name then some u else findByUsername rest name

def replaceByUsername : List UserProfile → String → UserProfile →
    List UserProfile
  | [], _, _ => []
  | u :: rest, name, w =>
    if u.username = name then w :: rest else u :: replaceByUsername rest name w

def findBySocketId : List UserProfile → String → Option UserProfile
  | [], _ => none
  | u :: rest, sid =>
    if u.socketId = sid then some u else findBySocketId rest sid

def addSysMessage (st : ClientState) (m : String) : ClientState :=
  { st with sysMessages := st.sysMessages ++ [m] }

/-- Handler `handleSetActiveChatTarget`: select a chat target and clear its unread
counter (the chat-request list it also clears is UI state, not modelled). -/
def setActiveTarget (st : ClientState) (target : String) : ClientState :=
  { st with activeChatTarget := target,
            unreadCounts := updateCount st.unreadCounts target 0 }

/-- Listener `user-joined`, reconnect branch, step 1: migrate the cached shared
secret from the old socket id to the new one (the old entry is kept). -/
def migrateSecret (st : ClientState) (ex u : UserProfile) : ClientState :=
  match lookupA st.sharedSecrets ex.socketId with
  | some s => { st with sharedSecrets := setA st.sharedSecrets u.socketId s }
  | none => st

/-- Listener `user-joined`, reconnect branch, step 2: migrate a nonzero unread
counter from the old socket id to the new one and delete the old key. -/
def migrateUnread (st : ClientState) (ex u : UserProfile) : ClientState :=
  if st.unreadCounts ex.socketId ≠ 0 then
    { st with
        unreadCounts :=
          updateCount
            (updateCount st.unreadCounts u.socketId
              (st.unreadCounts u.socketId + st.unreadCounts ex.socketId))
            ex.socketId 0 }
  else st

/-- Listener `user-joined`, reconnect branch, step 3: if the reconnecting peer was
the active chat target, retarget to the new socket id (which also clears the
new target's unread counter) and report the reconnection. -/
def migrateTarget (st : ClientState) (ex u : UserProfile) : ClientState :=
  if st.activeChatTarget = ex.socketId then
    addSysMessage (setActiveTarget st u.socketId)
      (u.username ++ " reconnected. Session updated.")
  else st

/-- Listener `user-joined`, the reconnect branch guard: migrations run only when the
existing entry for the username carries a different socket id. -/
def migrateOnRejoin (st : ClientState) (ex u : UserProfile) : ClientState :=
  if ex.socketId ≠ u.socketId then
    migrateTarget (migrateUnread (migrateSecret st ex u) ex u) ex u
  else st

/-- Listener `user-joined`, `setActiveUsers` updater: an existing entry with the same
username is migrated and replaced in place; otherwise the user is appended. -/
def userJoinedUsers (st : ClientState) (u onlineUser : UserProfile) :
    ClientState :=
  match findByUsername st.activeUsers u.username with
  | some ex =>
    { migrateOnRejoin st ex u with
        activeUsers :=
          replaceByUsername (migrateOnRejoin st ex u).activeUsers
            u.username onlineUser }
  | none => { st with activeUsers := st.activeUsers ++ [onlineUser] }

/-- Clear the pending direct-chat target. -/
def clearPending (st : ClientState) : ClientState :=
  { st with pendingTargetUser := none }

/-- Listener `user-joined`, pending-target block: a pending direct-chat target that
just joined becomes the active target. -/
def pendingStep (st : ClientState) (u : UserProfile) : ClientState :=
  match st.pendingTargetUser with
  | some p =>
    if u.username = p then
      clearPending (addSysMessage (setActiveTarget st u.socketId) ("User " ++ u.username ++ " just joined! Starting chat."))
    else st
  | none => st

/-- Listener `user-joined`, final step: the handler unconditionally derives the
session key from the announced public key and stores it under the new socket
id; the observation counter records the derivation call. -/
def deriveStep (st : ClientState) (u : UserProfile) : ClientState :=
  { st with
      sharedSecrets :=
        setA st.sharedSecrets u.socketId
          (deriveSharedSecret st.ownPriv u.publicKey),
      deriveCalls := st.deriveCalls + 1 }

/-- The `user-joined` listener, in program order. -/
def handleUserJoined (st : ClientState) (u : UserProfile) : ClientState :=
  deriveStep
    (pendingStep
      (addSysMessage (userJoinedUsers st u { u with isOnline := true })
        (u.username ++ " joined the room."))
      u)
    u

/-- Function `sendMessage`, addressing: a direct message goes to the active chat
target, a room message is encrypted and sent once per entry of
`activeUsers`. -/
def sendTargets (st : ClientState) : List String :=
  if st.activeChatTarget = "ROOM" then
    st.activeUsers.map UserProfile.socketId
  else [st.activeChatTarget]

theorem mem_replaceByUsername {l : List UserProfile} {name : String}
    {w v : UserProfile} (hn : (l.map UserProfile.username).Nodup)
    (hv : v ∈ replaceByUsername l name w) :
    v = w ∨ (v ∈ l ∧ v.username ≠ name) := by
  induction l with
  | nil => simp [replaceByUsername] at hv
  | cons a rest ih =>
    rw [List.map_cons, List.nodup_cons] at hn
    by_cases ha : a.username = name
    · rw [replaceByUsername, if_pos ha] at hv
      rcases List.mem_cons.mp hv with h | h
      · exact Or.inl h
      · refine Or.inr ⟨List.mem_cons_of_mem a h, ?_⟩
        intro hvn
        have hmem : v.username ∈ rest.map UserProfile.username :=
          List.mem_map_of_mem UserProfile.username h
        rw [hvn, ← ha] at hmem
        exact hn.1 hmem
    · rw [replaceByUsername, if_neg ha] at hv
      rcases List.mem_cons.mp hv with h | h
      · subst h
        exact Or.inr ⟨List.mem_cons_self v rest, ha⟩
      · rcases ih hn.2 h with h1 | ⟨h2, h3⟩
        · exact Or.inl h1
        · exact Or.inr ⟨List.mem_cons_of_mem a h2, h3⟩

@[simp] theorem addSysMessage_ownPriv (st : ClientState) (m : String) :
    (addSysMessage st m).ownPriv = st.ownPriv := rfl

@[simp] theorem addSysMessage_unread (st : ClientState) (m : String) :
    (addSysMessage st m).unreadCounts = st.unreadCounts := rfl

@[simp] theorem addSysMessage_target (st : ClientState) (m : String) :
    (addSysMessage st m).activeChatTarget = st.activeChatTarget := rfl

@[simp] theorem addSysMessage_pending (st : ClientState) (m : String) :
    (addSysMessage st m).pendingTargetUser = st.pendingTargetUser := rfl

@[simp] theorem addSysMessage_users (st : ClientState) (m : String) :
    (addSysMessage st m).activeUsers = st.activeUsers := rfl

@[simp] theorem addSysMessage_secrets (st : ClientState) (m : String) :
    (addSysMessage st m).sharedSecrets = st.sharedSecrets := rfl

@[simp] theorem setActiveTarget_ownPriv (st : ClientState) (t : String) :
    (setActiveTarget st t).ownPriv = st.ownPriv := rfl

@[simp] theorem setActiveTarget_pending (st : ClientState) (t : String) :
    (setActiveTarget st t).pendingTargetUser = st.pendingTargetUser := rfl

@[simp] theorem setActiveTarget_users (st : ClientState) (t : String) :
    (setActiveTarget st t).activeUsers = st.activeUsers := rfl

@[simp] theorem setActiveTarget_secrets (st : ClientState) (t : String) :
    (setActiveTarget st t).sharedSecrets = st.sharedSecrets := rfl

@[simp] theorem setActiveTarget_target (st : ClientState) (t : String) :
    (setActiveTarget st t).activeChatTarget = t := rfl

@[simp] theorem setActiveTarget_unread (st : ClientState) (t : String) :
    (setActiveTarget st t).unreadCounts = updateCount st.unreadCounts t 0 := rfl

@[simp] theorem deriveStep_ownPriv (st : ClientState) (u : UserProfile) :
    (deriveStep st u).ownPriv = st.ownPriv := rfl

@[simp] theorem deriveStep_unread (st : ClientState) (u : UserProfile) :
    (deriveStep st u).unreadCounts = st.unreadCounts := rfl

@[simp] theorem deriveStep_target (st : ClientState) (u : UserProfile) :
    (deriveStep st u).activeChatTarget = st.activeChatTarget := rfl

@[simp] theorem deriveStep_users (st : ClientState) (u : UserProfile) :
    (deriveStep st u).activeUsers = st.activeUsers := rfl

@[simp] theorem deriveStep_secrets (st : ClientState) (u : UserProfile) :
    (deriveStep st u).sharedSecrets
      = setA st.sharedSecrets u.socketId
          (deriveSharedSecret st.ownPriv u.publicKey) := rfl

@[simp] theorem migrateSecret_ownPriv (st : ClientState) (ex u : UserProfile) :
    (migrateSecret st ex u).ownPriv = st.ownPriv := by
  unfold migrateSecret
  split <;> rfl

@[simp] theorem migrateSecret_unread (st : ClientState) (ex u : UserProfile) :
    (migrateSecret st ex u).unreadCounts = st.unreadCounts := by
  unfold migrateSecret
  split <;> rfl

@[simp] theorem migrateSecret_target (st : ClientState) (ex u : UserProfile) :
    (migrateSecret st ex u).activeChatTarget = st.activeChatTarget := by
  unfold migrateSecret
  split <;> rfl

@[simp] theorem migrateSecret_pending (st : ClientState) (ex u : UserProfile) :
    (migrateSecret st ex u).pendingTargetUser = st.pendingTargetUser := by
  unfold migrateSecret
  split <;> rfl

@[simp] theorem migrateSecret_users (st : ClientState) (ex u : UserProfile) :
    (migrateSecret st ex u).activeUsers = st.activeUsers := by
  unfold migrateSecret
  split <;> rfl

@[simp] theorem migrateUnread_ownPriv (st : ClientState) (ex u : UserProfile) :
    (migrateUnread st ex u).ownPriv = st.ownPriv := by
  unfold migrateUnread
  split <;> rfl

@[simp] theorem migrateUnread_secrets (st : ClientState) (ex u : UserProfile) :
    (migrateUnread st ex u).sharedSecrets = st.sharedSecrets := by
  unfold migrateUnread
  split <;> rfl

@[simp] theorem migrateUnread_target (st : ClientState) (ex u : UserProfile) :
    (migrateUnread st ex u).activeChatTarget = st.activeChatTarget := by
  unfold migrateUnread
  split <;> rfl

@[simp] theorem migrateUnread_pending (st : ClientState) (ex u : UserProfile) :
    (migrateUnread st ex u).pendingTargetUser = st.pendingTargetUser := by
  unfold migrateUnread
  split <;> rfl

@[simp] theorem migrateUnread_users (st : ClientState) (ex u : UserProfile) :
    (migrateUnread st ex u).activeUsers = st.activeUsers := by
  unfold migrateUnread
  split <;> rfl

theorem migrateUnread_unread_zero (st : ClientState) (ex u : UserProfile)
    (hm : st.unreadCounts ex.socketId = 0) :
    (migrateUnread st ex u).unreadCounts = st.unreadCounts := by
  unfold migrateUnread
  simp [hm]

theorem migrateUnread_unread_pos (st : ClientState) (ex u : UserProfile)
    (hm : st.unreadCounts ex.socketId ≠ 0) :
    (migrateUnread st ex u).unreadCounts
      = updateCount
          (updateCount st.unreadCounts u.socketId
            (st.unreadCounts u.socketId + st.unreadCounts ex.socketId))
          ex.socketId 0 := by
  unfold migrateUnread
  simp [hm]

@[simp] theorem migrateTarget_ownPriv (st : ClientState) (ex u : UserProfile) :
    (migrateTarget st ex u).ownPriv = st.ownPriv := by
  unfold migrateTarget
  split <;> simp

@[simp] theorem migrateTarget_secrets (st : ClientState) (ex u : UserProfile) :
    (migrateTarget st ex u).sharedSecrets = st.sharedSecrets := by
  unfold migrateTarget
  split <;> simp

@[simp] theorem migrateTarget_pending (st : ClientState) (ex u : UserProfile) :
    (migrateTarget st ex u).pendingTargetUser = st.pendingTargetUser := by
  unfold migrateTarget
  split <;> simp

@[simp] theorem migrateTarget_users (st : ClientState) (ex u : UserProfile) :
    (migrateTarget st ex u).activeUsers = st.activeUsers := by
  unfold migrateTarget
  split <;> simp

theorem migrateTarget_of_ne (st : ClientState) (ex u : UserProfile)
    (h : st.activeChatTarget ≠ ex.socketId) :
    migrateTarget st ex u = st := by
  unfold migrateTarget
  simp [h]

theorem migrateTarget_target_of_eq (st : ClientState) (ex u : UserProfile)
    (h : st.activeChatTarget = ex.socketId) :
    (migrateTarget st ex u).activeChatTarget = u.socketId := by
  unfold migrateTarget
  simp [h]

theorem migrateTarget_unread_of_eq (st : ClientState) (ex u : UserProfile)
    (h : st.activeChatTarget = ex.socketId) :
    (migrateTarget st ex u).unreadCounts
      = updateCount st.unreadCounts u.socketId 0 := by
  unfold migrateTarget
  simp [h]

theorem migrateOnRejoin_of {ex u : UserProfile} (st : ClientState)
    (hne : ex.socketId ≠ u.socketId) :
    migrateOnRejoin st ex u
      = migrateTarget (migrateUnread (migrateSecret st ex u) ex u) ex u := by
  unfold migrateOnRejoin
  simp [hne]

theorem userJoinedUsers_of {st : ClientState} {u ex : UserProfile}
    (w : UserProfile)
    (hfind : findByUsername st.activeUsers u.username = some ex) :
    userJoinedUsers st u w
      = { migrateOnRejoin st ex u with
            activeUsers :=
              replaceByUsername (migrateOnRejoin st ex u).activeUsers
                u.username w } := by
  unfold userJoinedUsers
  rw [hfind]

theorem pendingStep_of_none {st : ClientState} (u : UserProfile)
    (h : st.pendingTargetUser = none) : pendingStep st u = st := by
  unfold pendingStep
  rw [h]

/-- Claim C1 (amended): when `user-joined` reports a known username under a
new socket id, the client migrates the cached session key and any pending
unread counter from the old id to the new one, and afterwards no message is
addressed to the stale id — but, contrary to the claim as stated, the
handler also rederives the session key from the announced public key (by
determinism the rederived key is the very key that was cached, so the cache
entry under the new id still equals the old cached key). -/
theorem c1_amended_reconnect_migration
    (st : ClientState) (u ex : UserProfile) (k : Nat)
    (hfind : findByUsername st.activeUsers u.username = some ex)
    (hne : ex.socketId ≠ u.socketId)
    (hsec : lookupA st.sharedSecrets ex.socketId = some k)
    (hk : k = deriveSharedSecret st.ownPriv u.publicKey)
    (honly : ∀ v ∈ st.activeUsers,
        v.socketId = ex.socketId → v.username = u.username)
    (hnodup : (st.activeUsers.map UserProfile.username).Nodup)
    (hpend : st.pendingTargetUser = none) :
    lookupA (handleUserJoined st u).sharedSecrets u.socketId = some k ∧
    (st.activeChatTarget ≠ ex.socketId →
      (handleUserJoined st u).unreadCounts u.socketId
        = st.unreadCounts u.socketId + st.unreadCounts ex.socketId) ∧
    (handleUserJoined st u).unreadCounts ex.socketId = 0 ∧
    ex.socketId ∉ sendTargets (handleUserJoined st u) := by
  have hne' : u.socketId ≠ ex.socketId := Ne.symm hne
  have hmem4 : ∀ tl : List UserProfile,
      tl = replaceByUsername st.activeUsers u.username
             { u with isOnline := true } →
      ex.socketId ∉ tl.map UserProfile.socketId := by
    intro tl htl hmem
    rcases List.mem_map.mp hmem with ⟨v, hv, hvs⟩
    rw [htl] at hv
    rcases mem_replaceByUsername hnodup hv with h | ⟨hvl, hvn⟩
    · rw [h] at hvs
      exact hne' hvs
    · exact hvn (honly v hvl hvs)
  have hUJ : userJoinedUsers st u { u with isOnline := true }
      = { migrateTarget (migrateUnread (migrateSecret st ex u) ex u) ex u with
            activeUsers :=
              replaceByUsername
                (migrateTarget (migrateUnread (migrateSecret st ex u) ex u)
                    ex u).activeUsers
                u.username { u with isOnline := true } } := by
    rw [userJoinedUsers_of _ hfind, migrateOnRejoin_of st hne]
  have hP : (addSysMessage (userJoinedUsers st u { u with isOnline := true })
      (u.username ++ " joined the room.")).pendingTargetUser = none := by
    rw [addSysMessage_pending, hUJ]
    simp [hpend]
  have hHU : handleUserJoined st u
      = deriveStep (addSysMessage
          (userJoinedUsers st u { u with isOnline := true })
          (u.username ++ " joined the room.")) u := by
    rw [handleUserJoined, pendingStep_of_none u hP]
  have hS2t : (migrateUnread (migrateSecret st ex u) ex u).activeChatTarget
      = st.activeChatTarget := by simp
  have hUnr : (handleUserJoined st u).unreadCounts
      = (migrateTarget (migrateUnread (migrateSecret st ex u) ex u)
          ex u).unreadCounts := by
    rw [hHU, deriveStep_unread, addSysMessage_unread, hUJ]
  have hUsr : (handleUserJoined st u).activeUsers
      = replaceByUsername st.activeUsers u.username
          { u with isOnline := true } := by
    rw [hHU, deriveStep_users, addSysMessage_users, hUJ]
    simp
  refine ⟨?_, ?_, ?_, ?_⟩
  · rw [hHU, deriveStep_secrets, lookupA_setA_self, addSysMessage_ownPriv,
      hUJ]
    simp [hk]
  · intro htg'
    have hmt := migrateTarget_of_ne
      (migrateUnread (migrateSecret st ex u) ex u) ex u
      (by rw [hS2t]; exact htg')
    rw [hUnr, hmt]
    by_cases hm : st.unreadCounts ex.socketId = 0
    · rw [migrateUnread_unread_zero (migrateSecret st ex u) ex u
        (by simp [hm])]
      simp [hm]
    · rw [migrateUnread_unread_pos (migrateSecret st ex u) ex u
        (by simp [hm])]
      simp [updateCount, hne']
  · rw [hUnr]
    by_cases htg : st.activeChatTarget = ex.socketId
    · rw [migrateTarget_unread_of_eq
        (migrateUnread (migrateSecret st ex u) ex u) ex u
        (by rw [hS2t]; exact htg)]
      by_cases hm : st.unreadCounts ex.socketId = 0
      · rw [migrateUnread_unread_zero (migrateSecret st ex u) ex u
          (by simp [hm])]
        simp [updateCount, hne, hm]
      · rw [migrateUnread_unread_pos (migrateSecret st ex u) ex u
          (by simp [hm])]
        simp [updateCount, hne]
    · rw [migrateTarget_of_ne
        (migrateUnread (migrateSecret st ex u) ex u) ex u
        (by rw [hS2t]; exact htg)]
      by_cases hm : st.unreadCounts ex.socketId = 0
      · rw [migrateUnread_unread_zero (migrateSecret st ex u) ex u
          (by simp [hm])]
        simp [hm]
      · rw [migrateUnread_unread_pos (migrateSecret st ex u) ex u
          (by simp [hm])]
        simp [updateCount]
  · rw [sendTargets]
    by_cases htg : st.activeChatTarget = ex.socketId
    · have hmt := migrateTarget_target_of_eq
        (migrateUnread (migrateSecret st ex u) ex u) ex u
        (by rw [hS2t]; exact htg)
      have htgt : (handleUserJoined st u).activeChatTarget = u.socketId := by
        rw [hHU, deriveStep_target, addSysMessage_target, hUJ]
        simp [hmt]
      rw [htgt, hUsr]
      by_cases hroom : u.socketId = "ROOM"
      · rw [if_pos hroom]
        exact hmem4 _ rfl
      · rw [if_neg hroom]
        simp [hne]
    · have hmt := migrateTarget_of_ne
        (migrateUnread (migrateSecret st ex u) ex u) ex u
        (by rw [hS2t]; exact htg)
      have htgt : (handleUserJoined st u).activeChatTarget
          = st.activeChatTarget := by
        rw [hHU, deriveStep_target, addSysMessage_target, hUJ]
        simp [hmt]
      rw [htgt, hUsr]
      by_cases hroom : st.activeChatTarget = "ROOM"
      · rw [if_pos hroom]
        exact hmem4 _ rfl
      · rw [if_neg hroom]
        simp [Ne.symm htg]

/-- Concrete reconnect scenario for C1: the peer `peer` is known under
socket id `c1` with a cached session key, and rejoins under `c2`. -/
def exC1Peer : UserProfile := ⟨"c1", "peer", 5, false⟩

def exC1Joined : UserProfile := ⟨"c2", "peer", 5, true⟩

def exC1St : ClientState where
  ownPriv := 1
  activeUsers := [exC1Peer]
  sharedSecrets := [("c1", deriveSharedSecret 1 5)]
  unreadCounts := fun x => if x = "c1" then 2 else 0
  activeChatTarget := "ROOM"
  pendingTargetUser := none
  roomMessages := []
  directMessages := fun _ => []
  sysMessages := []
  deriveCalls := 0
  processedTransferIds := []
  activeTransfers := []
  fileChunks := []
  saves := []

/-- Counterexample to claim C1 as stated: the claim says the client re-keys
the cached session key under the new connection id *rather than rederiving
it*, yet on this reconnect — the peer's key is already cached under `c1` —
the `user-joined` handler performs exactly one fresh key-derivation call
(lines 1557-1563 of ChatContext.tsx run unconditionally after the
migration). -/
theorem c1_counterexample_user_joined_rederives :
    lookupA exC1St.sharedSecrets "c1"
      = some (deriveSharedSecret exC1St.ownPriv exC1Joined.publicKey) ∧
    (handleUserJoined exC1St exC1Joined).deriveCalls
      = exC1St.deriveCalls + 1 := by
  constructor
  · rfl
  · rfl

/-- Witness for the amended C1 at the concrete reconnect scenario. -/
theorem c1_amended_reconnect_migration_witness :
    lookupA (handleUserJoined exC1St exC1Joined).sharedSecrets "c2"
      = some (deriveSharedSecret 1 5) ∧
    (handleUserJoined exC1St exC1Joined).unreadCounts "c2"
      = exC1St.unreadCounts "c2" + exC1St.unreadCounts "c1" ∧
    (handleUserJoined exC1St exC1Joined).unreadCounts "c1" = 0 ∧
    "c1" ∉ sendTargets (handleUserJoined exC1St exC1Joined) := by
  have h := c1_amended_reconnect_migration exC1St exC1Joined exC1Peer
    (deriveSharedSecret 1 5) (by decide) (by decide) (by decide) (by decide)
    (by decide) (by decide) rfl
  exact ⟨h.1, h.2.1 (by decide), h.2.2.1, h.2.2.2⟩

/-- Listener `encrypted-message`: display name resolution — the sender's profile if
present, else the username carried by the relay envelope, else `Unknown`. -/
def displayNameOf (st : ClientState) (sid : String) (su : Option String) :
    String :=
  match findBySocketId st.activeUsers sid with
  | some u => u.username
  | none => su.getD "Unknown"

/-- Listener `encrypted-message`: a direct message from an unknown sender that
carries a username and a public key adds the sender to `activeUsers`. -/
def maybeAddSender (st : ClientState) (sid : String) (su : Option String)
    (p : EncPayload) : ClientState :=
  if p.isDirect then
    match findBySocketId st.activeUsers sid, su, p.senderPub with
    | none, some name, some pk =>
      { st with activeUsers := st.activeUsers ++ [⟨sid, name, pk, true⟩] }
    | _, _, _ => st
  else st

/-- Listener `encrypted-message`: unread counting for a message that is not for the
currently active chat target. -/
def bumpUnread (st : ClientState) (sid : String) (p : EncPayload) :
    ClientState :=
  if p.isDirect then
    if st.activeChatTarget ≠ sid then
      { st with unreadCounts :=
          updateCount st.unreadCounts sid (st.unreadCounts sid + 1) }
    else st
  else
    if st.activeChatTarget ≠ "ROOM" then
      { st with unreadCounts :=
          updateCount st.unreadCounts "ROOM" (st.unreadCounts "ROOM" + 1) }
    else st

/-- Listener `encrypted-message`: append the decrypted text to the direct-message
history keyed by the display name, or to the room history. -/
def appendMessage (st : ClientState) (p : EncPayload) (name text : String) :
    ClientState :=
  if p.isDirect then
    { st with directMessages := fun n =>
        if n = name then st.directMessages n ++ [text]
        else st.directMessages n }
  else { st with roomMessages := st.roomMessages ++ [text] }

/-- Listener `encrypted-message`, delivery under a resolved key: decrypt, and on a
truthy plaintext run the sender/unread/history updates in program order; a
failed (or empty) decryption changes nothing — the catch branch only logs. -/
def deliverWith (st : ClientState) (sid : String) (su : Option String)
    (p : EncPayload) (s : Nat) : ClientState :=
  match decryptText p.cipher s with
  | none => st
  | some text =>
    if text = "" then st
    else
      appendMessage (bumpUnread (maybeAddSender st sid su p) sid p) p
        (displayNameOf st sid su) text

/-- The `encrypted-message` listener: resolve the sender's session key from
the cache, fall back to deriving it from the public key carried in the
envelope, and silently discard the message when no key can be resolved. -/
def handleEncryptedMessage (st : ClientState) (sid : String)
    (su : Option String) (p : EncPayload) : ClientState :=
  match lookupA st.sharedSecrets sid with
  | some s => deliverWith st sid su p s
  | none =>
    match p.senderPub with
    | some pk =>
      deliverWith
        { st with
            sharedSecrets :=
              setA st.sharedSecrets sid (deriveSharedSecret st.ownPriv pk),
            deriveCalls := st.deriveCalls + 1 }
        sid su p (deriveSharedSecret st.ownPriv pk)
    | none => st

theorem deliverWith_secrets (st : ClientState) (sid : String)
    (su : Option String) (p : EncPayload) (s : Nat) :
    (deliverWith st sid su p s).sharedSecrets = st.sharedSecrets := by
  unfold deliverWith appendMessage bumpUnread maybeAddSender
  repeat' split
  all_goals rfl

/-- Claim C8: on an `encrypted-message` envelope the client resolves the
sender's session key from its cache, falling back to deriving it from the
public key carried in the envelope when no cache entry exists (and caches
the derived key); with no cache entry and no carried key the envelope is
silently discarded; and a decryption failure never appends a message and
never crashes — the handler is a total function that leaves the message
history unchanged. -/
theorem c8_resolve_fallback_and_silent_discard :
    (∀ (st : ClientState) (sid : String) (su : Option String)
        (p : EncPayload),
        lookupA st.sharedSecrets sid = none → p.senderPub = none →
        handleEncryptedMessage st sid su p = st) ∧
    (∀ (st : ClientState) (sid : String) (su : Option String)
        (p : EncPayload) (pk : Nat),
        lookupA st.sharedSecrets sid = none → p.senderPub = some pk →
        lookupA (handleEncryptedMessage st sid su p).sharedSecrets sid
          = some (deriveSharedSecret st.ownPriv pk) ∧
        (decryptText p.cipher (deriveSharedSecret st.ownPriv pk) = none →
          (handleEncryptedMessage st sid su p).roomMessages
            = st.roomMessages ∧
          (handleEncryptedMessage st sid su p).directMessages
            = st.directMessages)) ∧
    (∀ (st : ClientState) (sid : String) (su : Option String)
        (p : EncPayload) (s : Nat),
        lookupA st.sharedSecrets sid = some s →
        decryptText p.cipher s = none →
        handleEncryptedMessage st sid su p = st) := by
  refine ⟨?_, ?_, ?_⟩
  · intro st sid su p h1 h2
    unfold handleEncryptedMessage
    rw [h1, h2]
  · intro st sid su p pk h1 h2
    constructor
    · unfold handleEncryptedMessage
      rw [h1, h2, deliverWith_secrets]
      exact lookupA_setA_self st.sharedSecrets sid
        (deriveSharedSecret st.ownPriv pk)
    · intro hfail
      unfold handleEncryptedMessage
      rw [h1, h2]
      dsimp only
      unfold deliverWith
      rw [hfail]
      exact ⟨rfl, rfl⟩
  · intro st sid su p s h1 hfail
    unfold handleEncryptedMessage
    rw [h1]
    dsimp only
    unfold deliverWith
    rw [hfail]

/-- Witness for C8 at concrete inputs: an empty cache with a bare envelope
is dropped; an empty cache with a carried public key derives and caches the
key, and a ciphertext under a wrong key appends nothing; a cached key with a
wrong-key ciphertext leaves the state unchanged. -/
def exC8St : ClientState where
  ownPriv := 1
  activeUsers := []
  sharedSecrets := [("s9", 42)]
  unreadCounts := fun _ => 0
  activeChatTarget := "ROOM"
  pendingTargetUser := none
  roomMessages := []
  directMessages := fun _ => []
  sysMessages := []
  deriveCalls := 0
  processedTransferIds := []
  activeTransfers := []
  fileChunks := []
  saves := []

theorem c8_resolve_fallback_and_silent_discard_witness :
    handleEncryptedMessage exC8St "s1" (some "peer")
      ⟨none, ⟨99, "hello"⟩, true⟩ = exC8St ∧
    lookupA (handleEncryptedMessage exC8St "s1" (some "peer")
        ⟨some 5, ⟨99, "hello"⟩, true⟩).sharedSecrets "s1"
      = some (deriveSharedSecret exC8St.ownPriv 5) ∧
    (handleEncryptedMessage exC8St "s1" (some "peer")
        ⟨some 5, ⟨99, "hello"⟩, true⟩).roomMessages = exC8St.roomMessages ∧
    (handleEncryptedMessage exC8St "s1" (some "peer")
        ⟨some 5, ⟨99, "hello"⟩, true⟩).directMessages
      = exC8St.directMessages ∧
    handleEncryptedMessage exC8St "s9" (some "peer")
      ⟨none, ⟨99, "hello"⟩, true⟩ = exC8St := by
  have h2 := (c8_resolve_fallback_and_silent_discard.2.1 exC8St "s1"
    (some "peer") ⟨some 5, ⟨99, "hello"⟩, true⟩ 5 (by decide) rfl)
  have h2f := h2.2 (by decide)
  exact ⟨c8_resolve_fallback_and_silent_discard.1 exC8St "s1" (some "peer")
      ⟨none, ⟨99, "hello"⟩, true⟩ (by decide) rfl,
    h2.1, h2f.1, h2f.2,
    c8_resolve_fallback_and_silent_discard.2.2 exC8St "s9" (some "peer")
      ⟨none, ⟨99, "hello"⟩, true⟩ 42 (by decide) (by decide)⟩

/-- utils/FileTransferManager.ts `reassembleFile`: walk the chunk indices
`0 .. totalChunks - 1` in ascending order, keep the chunks that are present,
and concatenate them into the blob (the `ftype` argument only tags the blob's
MIME type). -/
def reassembleFile (chunks : List (Nat × List Nat)) (totalChunks : Nat)
    (ftype : String) : List Nat :=
  ((List.range totalChunks).filterMap (fun i => lookupA chunks i)).join

/-- The `file-chunk` listener: store the chunk in the per-transfer map keyed
by chunk index, creating the map when the offer was missed (the remaining
body only updates UI progress). -/
def handleFileChunk (st : ClientState) (tid : String) (chunkId : Nat)
    (data : List Nat) : ClientState :=
  match lookupA st.fileChunks tid with
  | some m =>
    { st with fileChunks := setA st.fileChunks tid (setA m chunkId data) }
  | none =>
    { st with fileChunks := setA st.fileChunks tid [(chunkId, data)] }

/-- Listener `file-complete`, step after the guards: record the transferId as
processed and mark the transfer completed. -/
def markProcessed (st : ClientState) (tid : String) (tr : Transfer) :
    ClientState :=
  { st with
      processedTransferIds := tid :: st.processedTransferIds,
      activeTransfers :=
        setA st.activeTransfers tid
          { tr with status := TStatus.completed, progress := 100 } }

/-- Listener `file-complete`, download branch: a missing or empty chunk map and a
zero-byte blob are reported as errors; otherwise the blob is reassembled and
saved (the save prompt is recorded in `saves`) and success is reported. -/
def finalizeDownload (st : ClientState) (tid : String) (tr : Transfer) :
    ClientState :=
  match lookupA st.fileChunks tid with
  | none => addSysMessage st "Error: Received empty file."
  | some chunks =>
    if chunks = [] then addSysMessage st "Error: Received empty file."
    else if reassembleFile chunks tr.chunksTotal tr.fileType = [] then
      addSysMessage st "Error: File corrupted (0 bytes)."
    else
      addSysMessage
        { st with saves :=
            st.saves ++ [(tid, reassembleFile chunks tr.chunksTotal tr.fileType)] }
        ("File received: " ++ tr.fileName)

/-- The `file-complete` listener: the `processedTransferIds` guard, the
transfer-state guard, then the upload notice or the download finalization. -/
def handleFileComplete (st : ClientState) (tid : String) : ClientState :=
  if memA st.processedTransferIds tid then st
  else
    match lookupA st.activeTransfers tid with
    | none => st
    | some tr =>
      if tr.status = TStatus.completed then st
      else if tr.isUpload then
        addSysMessage (markProcessed st tid tr) ("File sent: " ++ tr.fileName)
      else finalizeDownload (markProcessed st tid tr) tid tr

@[simp] theorem memA_cons_self (l : List String) (s : String) :
    memA (s :: l) s = true := by
  simp [memA]

theorem finalizeDownload_processed (st : ClientState) (tid : String)
    (tr : Transfer) :
    (finalizeDownload st tid tr).processedTransferIds
      = st.processedTransferIds := by
  unfold finalizeDownload addSysMessage
  repeat' split
  all_goals rfl

theorem handleFileComplete_of_processed (st : ClientState) (tid : String)
    (h : memA st.processedTransferIds tid = true) :
    handleFileComplete st tid = st := by
  unfold handleFileComplete
  rw [h]
  rfl

theorem handleFileComplete_processed_after (st : ClientState) (tid : String) :
    handleFileComplete st tid = st ∨
      memA (handleFileComplete st tid).processedTransferIds tid = true := by
  unfold handleFileComplete
  by_cases h : memA st.processedTransferIds tid = true
  · rw [h]
    exact Or.inl rfl
  · rw [Bool.eq_false_iff.mpr h]
    simp only [Bool.false_eq_true, if_false, ite_false]
    cases htr : lookupA st.activeTransfers tid with
    | none => exact Or.inl rfl
    | some tr =>
      by_cases hst : tr.status = TStatus.completed
      · simp only [hst, if_true, ite_true]
        exact Or.inl trivial
      · simp only [hst, if_false, ite_false]
        by_cases hup : tr.isUpload = true
        · rw [if_pos hup]
          exact Or.inr (by simp [addSysMessage, markProcessed])
        · rw [if_neg hup]
          exact Or.inr
            (by rw [finalizeDownload_processed]; simp [markProcessed])

/-- Claim C5: duplicate `file-complete` signals for one transferId finalize
at most once — the handler is idempotent, and a first signal that passes the
guards on a receiving transfer with a nonempty chunk set records exactly one
save prompt. -/
theorem c5_file_complete_idempotent :
    (∀ (st : ClientState) (tid : String),
        handleFileComplete (handleFileComplete st tid) tid
          = handleFileComplete st tid) ∧
    (∀ (st : ClientState) (tid : String) (tr : Transfer)
        (chunks : List (Nat × List Nat)),
        memA st.processedTransferIds tid = false →
        lookupA st.activeTransfers tid = some tr →
        tr.status ≠ TStatus.completed →
        tr.isUpload = false →
        lookupA st.fileChunks tid = some chunks →
        chunks ≠ [] →
        reassembleFile chunks tr.chunksTotal tr.fileType ≠ [] →
        (handleFileComplete st tid).saves
          = st.saves
              ++ [(tid, reassembleFile chunks tr.chunksTotal tr.fileType)]) := by
  constructor
  · intro st tid
    rcases handleFileComplete_processed_after st tid with h | h
    · rw [h, h]
    · exact handleFileComplete_of_processed _ tid h
  · intro st tid tr chunks hmem htr hst hup hch hne hblob
    unfold handleFileComplete
    rw [hmem]
    simp only [Bool.false_eq_true, if_false, ite_false]
    rw [htr]
    simp only [hst, if_false, ite_false, hup]
    unfold finalizeDownload markProcessed
    dsimp only
    rw [hch]
    simp only [hne, if_false, ite_false, hblob]
    rfl

/-- Witness for C5 at a concrete receiving transfer with both chunks
present: the first completion records one save, a duplicate is a no-op. -/
def exC5Tr : Transfer :=
  ⟨"pic.png", "image/png", 2, TStatus.transferring, false, "sX", 50⟩

def exC5St : ClientState where
  ownPriv := 1
  activeUsers := []
  sharedSecrets := []
  unreadCounts := fun _ => 0
  activeChatTarget := "ROOM"
  pendingTargetUser := none
  roomMessages := []
  directMessages := fun _ => []
  sysMessages := []
  deriveCalls := 0
  processedTransferIds := []
  activeTransfers := [("t1", exC5Tr)]
  fileChunks := [("t1", [(0, [1, 2]), (1, [3])])]
  saves := []

theorem c5_file_complete_idempotent_witness :
    handleFileComplete (handleFileComplete exC5St "t1") "t1"
      = handleFileComplete exC5St "t1" ∧
    (handleFileComplete exC5St "t1").saves
      = exC5St.saves
          ++ [("t1", reassembleFile [(0, [1, 2]), (1, [3])]
                exC5Tr.chunksTotal exC5Tr.fileType)] := by
  constructor
  · exact c5_file_complete_idempotent.1 exC5St "t1"
  · exact c5_file_complete_idempotent.2 exC5St "t1" exC5Tr
      [(0, [1, 2]), (1, [3])] rfl (by decide) (by decide) rfl rfl
      (by decide) (by decide)

/-- Failing input for C2: a receiving transfer that declared 2 chunks but
whose buffer holds only chunk 0 when `file-complete` arrives. -/
def exC2Tr : Transfer :=
  ⟨"doc.bin", "application/bin", 2, TStatus.transferring, false, "sX", 50⟩

def exC2St : ClientState where
  ownPriv := 1
  activeUsers := []
  sharedSecrets := []
  unreadCounts := fun _ => 0
  activeChatTarget := "ROOM"
  pendingTargetUser := none
  roomMessages := []
  directMessages := fun _ => []
  sysMessages := []
  deriveCalls := 0
  processedTransferIds := []
  activeTransfers := [("t1", exC2Tr)]
  fileChunks := [("t1", [(0, [7, 8, 9])])]
  saves := []

/-- Claim C2 fails on the code: with a short chunk set (1 of the declared 2
chunks buffered), the `file-complete` handler reassembles the present chunks,
saves the truncated blob, and reports success — the `chunks.size === 0` and
`blob.size === 0` guards do not compare against `chunksTotal`, so a short
set is silently presented as a completed transfer instead of a failure. -/
theorem c2_short_chunk_set_saved_as_success :
    ((lookupA exC2St.fileChunks "t1").getD []).length = 1 ∧
    exC2Tr.chunksTotal = 2 ∧
    (handleFileComplete exC2St "t1").saves = [("t1", [7, 8, 9])] ∧
    (handleFileComplete exC2St "t1").sysMessages
      = ["File received: doc.bin"] := by
  refine ⟨by decide, rfl, ?_, ?_⟩
  · rfl
  · rfl

/-- Lookup in an association list with pairwise-distinct keys is invariant
under permutation of the entries. -/
theorem lookupA_perm {α β : Type} [DecidableEq α]
    {l1 l2 : List (α × β)} (hp : l1.Perm l2)
    (hn : (l1.map Prod.fst).Nodup) (k : α) :
    lookupA l1 k = lookupA l2 k := by
  induction hp with
  | nil => rfl
  | cons x l ih =>
    rw [List.map_cons, List.nodup_cons] at hn
    by_cases hk : k = x.1
    · rcases x with ⟨x1, x2⟩
      rw [lookupA, lookupA, if_pos hk, if_pos hk]
    · rcases x with ⟨x1, x2⟩
      rw [lookupA, lookupA, if_neg hk, if_neg hk]
      exact ih hn.2
  | swap x y l =>
    rw [List.map_cons, List.map_cons, List.nodup_cons, List.nodup_cons] at hn
    have hxy : y.1 ≠ x.1 := by
      intro he
      exact hn.1 (by rw [he]; exact List.mem_cons_self x.1 _)
    rcases x with ⟨x1, x2⟩
    rcases y with ⟨y1, y2⟩
    by_cases hk1 : k = y1
    · rw [lookupA, if_pos hk1, lookupA, if_neg (hk1 ▸ hxy), lookupA,
        if_pos hk1]
    · by_cases hk2 : k = x1
      · rw [lookupA, if_neg hk1, lookupA, if_pos hk2, lookupA, if_pos hk2]
      · rw [lookupA, if_neg hk1, lookupA, if_neg hk2, lookupA, if_neg hk2,
          lookupA, if_neg hk1]
  | trans h12 h23 ih12 ih23 =>
    rw [ih12 hn]
    exact ih23 ((h12.map Prod.fst).nodup hn)

/-- Folding `setA` over entries with pairwise-distinct keys: the resulting
lookup consults the folded entries first and falls back to the base map. -/
theorem lookupA_foldl_setA {α β : Type} [DecidableEq α]
    (l : List (α × β)) (m : List (α × β))
    (hn : (l.map Prod.fst).Nodup) (k : α) :
    lookupA (l.foldl (fun acc p => setA acc p.1 p.2) m) k
      = match lookupA l k with
        | some v => some v
        | none => lookupA m k := by
  induction l generalizing m with
  | nil => rfl
  | cons hd tl ih =>
    rw [List.map_cons, List.nodup_cons] at hn
    rw [List.foldl_cons, ih (setA m hd.1 hd.2) hn.2]
    rcases hd with ⟨k0, v0⟩
    by_cases hk : k = k0
    · subst hk
      have htl : lookupA tl k = none := by
        clear ih
        induction tl with
        | nil => rfl
        | cons a rest ihr =>
          rw [List.map_cons] at hn
          have hka : ¬ k = a.1 := by
            intro he
            exact hn.1 (by rw [he]; exact List.mem_cons_self a.1 _)
          rcases a with ⟨a1, a2⟩
          rw [lookupA, if_neg hka]
          exact ihr ⟨fun hmem => hn.1 (List.mem_cons_of_mem a1 hmem),
            hn.2.of_cons⟩
      rw [htl, lookupA, if_pos rfl, lookupA_setA_self]
    · rw [lookupA, if_neg hk, lookupA_setA_ne m v0 hk]

/-- The chunk buffer of one transfer. -/
def chunkMapOf (st : ClientState) (tid : String) : List (Nat × List Nat) :=
  (lookupA st.fileChunks tid).getD []

/-- Deliver a list of `file-chunk` events for one transfer. -/
def deliverChunks (st : ClientState) (tid : String)
    (l : List (Nat × List Nat)) : ClientState :=
  l.foldl (fun s p => handleFileChunk s tid p.1 p.2) st

theorem chunkMapOf_handleFileChunk (st : ClientState) (tid : String)
    (i : Nat) (d : List Nat) :
    chunkMapOf (handleFileChunk st tid i d) tid
      = setA (chunkMapOf st tid) i d := by
  unfold handleFileChunk chunkMapOf
  cases h : lookupA st.fileChunks tid with
  | none => dsimp only; rw [lookupA_setA_self]; rfl
  | some m => dsimp only; rw [lookupA_setA_self]; rfl

theorem chunkMapOf_deliverChunks (st : ClientState) (tid : String)
    (l : List (Nat × List Nat)) :
    chunkMapOf (deliverChunks st tid l) tid
      = l.foldl (fun acc p => setA acc p.1 p.2) (chunkMapOf st tid) := by
  induction l generalizing st with
  | nil => rfl
  | cons hd tl ih =>
    rw [deliverChunks, List.foldl_cons, List.foldl_cons]
    rw [show tl.foldl (fun s p => handleFileChunk s tid p.1 p.2)
          (handleFileChunk st tid hd.1 hd.2)
        = deliverChunks (handleFileChunk st tid hd.1 hd.2) tid tl from rfl]
    rw [ih (handleFileChunk st tid hd.1 hd.2),
      chunkMapOf_handleFileChunk]

/-- Claim C6: for a transfer whose chunk buffer starts empty, delivering the
`file-chunk` events in any order yields a buffer whose index-ordered
reassembly is byte-identical to the in-order delivery — chunks are keyed by
index and concatenated by ascending index, not arrival order. -/
theorem c6_reassembly_order_independent
    (st : ClientState) (tid : String) (total : Nat) (ftype : String)
    (l1 l2 : List (Nat × List Nat))
    (hp : l1.Perm l2) (hn : (l1.map Prod.fst).Nodup)
    (hempty : chunkMapOf st tid = []) :
    reassembleFile (chunkMapOf (deliverChunks st tid l1) tid) total ftype
      = reassembleFile (chunkMapOf (deliverChunks st tid l2) tid) total
          ftype := by
  have hn2 : (l2.map Prod.fst).Nodup := (hp.map Prod.fst).nodup hn
  have hlook : ∀ k : Nat,
      lookupA (chunkMapOf (deliverChunks st tid l1) tid) k
        = lookupA (chunkMapOf (deliverChunks st tid l2) tid) k := by
    intro k
    rw [chunkMapOf_deliverChunks, chunkMapOf_deliverChunks, hempty]
    rw [lookupA_foldl_setA l1 [] hn k, lookupA_foldl_setA l2 [] hn2 k]
    rw [lookupA_perm hp hn k]
  unfold reassembleFile
  rw [funext hlook]

/-- Witness for C6: delivering the chunks of a 3-chunk transfer in the order
[2, 0, 1] reassembles identically to the in-order delivery [0, 1, 2]. -/
def exC6St : ClientState where
  ownPriv := 1
  activeUsers := []
  sharedSecrets := []
  unreadCounts := fun _ => 0
  activeChatTarget := "ROOM"
  pendingTargetUser := none
  roomMessages := []
  directMessages := fun _ => []
  sysMessages := []
  deriveCalls := 0
  processedTransferIds := []
  activeTransfers := []
  fileChunks := [("t1", [])]
  saves := []

theorem c6_reassembly_order_independent_witness :
    reassembleFile
        (chunkMapOf
          (deliverChunks exC6St "t1" [(0, [10]), (1, [20]), (2, [30])])
          "t1")
        3 "image/png"
      = reassembleFile
          (chunkMapOf
            (deliverChunks exC6St "t1" [(2, [30]), (0, [10]), (1, [20])])
            "t1")
          3 "image/png" := by
  exact c6_reassembly_order_independent exC6St "t1" 3 "image/png"
    [(0, [10]), (1, [20]), (2, [30])] [(2, [30]), (0, [10]), (1, [20])]
    (by decide) (by decide) rfl

end SecureChat
